import Mathlib

/-!
Verification of the custom-hostname client module (`custom_hostname.go`) of
the cloudflare-go repository.

The module is glue code around two external collaborators:

* the shared HTTP transport `makeRequest` (defined elsewhere in the
  repository), which receives a method, a URI and an optional body and
  returns raw response bytes or an error; and
* the JSON codec (`encoding/json`), which turns response bytes into typed
  response envelopes or fails.

Both collaborators are modelled as fields of an `ApiEnv` record, so every
theorem below quantifies over all transport and decoder behaviours.  Each
modelled operation returns, besides the Go return values, the list of
requests it issued to the transport, which makes "issues a GET to ..." and
"never performs a request" directly statable.

Strings are Go strings; `url.Values` and its `Encode` (sorted keys,
query-escaped keys and values, `'&'`-separated `k=v` pairs) are embedded
below following `net/url`.
-/

namespace CloudflareCH

/-- Raw response bytes returned by the transport collaborator. -/
abbrev Bytes := List UInt8

/-- Go errors as produced by `errors.New` and `errors.Wrap` of
`github.com/pkg/errors`: either a fresh message or an inner error wrapped
with a context message. -/
inductive GoError where
  | new : String → GoError
  | wrap : GoError → String → GoError
deriving DecidableEq, Repr

/-- Modelled from the spec: `errMakeRequestError` is a constant of the
repository's shared client code (outside this file); §7 calls it the
`TransportError` context, wrapping the collaborator's failure. -/
def errMakeRequestError : String := "error from makeRequest"

/-- Modelled from the spec: `errUnmarshalError` is a constant of the
repository's shared client code (outside this file); §7 calls it the
`DecodeError` context, wrapping the decode failure. -/
def errUnmarshalError : String := "error unmarshalling the JSON response"

/-- CustomHostnameSSL represents the SSL section in a given custom hostname. -/
structure CustomHostnameSSL where
  Status : String := ""
  Method : String := ""
  Type' : String := ""
  CNAMETarget : String := ""
  CNAMEName : String := ""
deriving DecidableEq, Repr

/-- CustomMetadata defines custom metadata for the hostname: an open
string-keyed mapping whose values are opaque to this module (they are only
carried through), embedded as an association list. -/
def CustomMetadata := List (String × String)
deriving DecidableEq, Repr

instance : Inhabited CustomMetadata := ⟨([] : List (String × String))⟩

/-- CustomHostname represents a custom hostname in a zone. -/
structure CustomHostname where
  ID : String := ""
  Hostname : String := ""
  CustomOriginServer : String := ""
  SSL : CustomHostnameSSL := {}
  CustomMetadata : CustomMetadata := ([] : List (String × String))
deriving DecidableEq, Repr

/-- Modelled from the spec: the shared response envelope's status metadata
(`Response`, defined elsewhere in the repository), consumed here only for
pass-through. -/
structure Response where
  Success : Bool := false
  Errors : List String := []
  Messages : List String := []
deriving DecidableEq, Repr

/-- Modelled from the spec: `ResultInfo` is the pagination envelope (page
number, per-page count, total count), owned by the shared transport layer
and defined elsewhere in the repository. -/
structure ResultInfo where
  Page : Int := 0
  PerPage : Int := 0
  Total : Int := 0
deriving DecidableEq, Repr

/-- CustomHostnameResponse represents a response from the Custom Hostnames
endpoints. -/
structure CustomHostnameResponse where
  Result : CustomHostname := {}
  response : Response := {}
deriving DecidableEq, Repr

/-- CustomHostnameListResponse represents a response from the Custom
Hostnames endpoints. -/
structure CustomHostnameListResponse where
  Result : List CustomHostname := []
  response : Response := {}
  resultInfo : ResultInfo := {}
deriving DecidableEq, Repr

/-- A single request handed to the transport collaborator: method, URI and
optional JSON-serializable body (the only body type this file sends is
`CustomHostname`). -/
structure Request where
  method : String
  uri : String
  body : Option CustomHostname
deriving DecidableEq, Repr

/-- The external collaborators of the module: the shared HTTP transport
(`api.makeRequest`) and the JSON decoders (`json.Unmarshal` at the two
envelope types used by this file). -/
structure ApiEnv where
  makeRequest : Request → Except GoError Bytes
  unmarshalCH : Bytes → Except GoError CustomHostnameResponse
  unmarshalCHList : Bytes → Except GoError CustomHostnameListResponse

/-! ## `net/url` query encoding -/

/-- Characters that `net/url`'s query escaping leaves unchanged:
alphanumerics and `-_.~`. -/
def isUnreservedChar (c : Char) : Bool :=
  ('a' ≤ c && c ≤ 'z') || ('A' ≤ c && c ≤ 'Z') || ('0' ≤ c && c ≤ '9') ||
  c == '-' || c == '_' || c == '.' || c == '~'

/-- Uppercase hexadecimal digit, as used by `net/url` percent-escaping. -/
def upperHexChar (n : Nat) : Char :=
  if n < 10 then Char.ofNat (48 + n) else Char.ofNat (55 + n)

/-- Percent-escape a single byte as `%XY` with uppercase hex digits. -/
def escapeByte (b : Nat) : String :=
  "%" ++ String.singleton (upperHexChar (b / 16)) ++
    String.singleton (upperHexChar (b % 16))

/-- The UTF-8 bytes of a character, as Go's byte-wise escaping sees a
string. -/
def utf8ByteList (c : Char) : List Nat :=
  let n := c.toNat
  if n < 128 then [n]
  else if n < 2048 then [192 + n / 64, 128 + n % 64]
  else if n < 65536 then [224 + n / 4096, 128 + (n / 64) % 64, 128 + n % 64]
  else [240 + n / 262144, 128 + (n / 4096) % 64, 128 + (n / 64) % 64,
    128 + n % 64]

/-- Query-escape one character: unreserved characters pass through, space
becomes `'+'`, every other byte of the character's UTF-8 form is
percent-escaped. -/
def escapeChar (c : Char) : String :=
  if isUnreservedChar c then String.singleton c
  else if c == ' ' then "+"
  else String.join ((utf8ByteList c).map escapeByte)

/-- Embedding of `url.QueryEscape`. -/
def queryEscape (s : String) : String :=
  String.join (s.data.map escapeChar)

/-- Embedding of `url.Values` restricted to the shape this file builds: an association
list of keys to single values (only `Set` is ever used). -/
def Values := List (String × String)

/-- Embedding of `url.Values.Set`: replace any existing entry for the key. -/
def Values.set (v : Values) (key value : String) : Values :=
  (List.filter (fun p => !(p.1 == key)) v) ++ [(key, value)]

/-- Lexicographic order on character lists by code point; UTF-8 preserves
code-point order, so this is exactly the byte-wise string order
`sort.Strings` uses. -/
def charListLe : List Char → List Char → Bool
  | [], _ => true
  | _ :: _, [] => false
  | a :: as, b :: bs =>
    if a.toNat < b.toNat then true
    else if b.toNat < a.toNat then false
    else charListLe as bs

/-- Go's string order, as `sort.Strings` compares keys. -/
def goStringLe (a b : String) : Bool := charListLe a.data b.data

/-- Insert an entry into a key-sorted association list. -/
def insertByKey (p : String × String) : List (String × String) → List (String × String)
  | [] => [p]
  | q :: rest => if goStringLe p.1 q.1 then p :: q :: rest else q :: insertByKey p rest

/-- Sort an association list by key, as `url.Values.Encode` sorts the map
keys before rendering. -/
def sortByKey : List (String × String) → List (String × String)
  | [] => []
  | p :: rest => insertByKey p (sortByKey rest)

/-- Render sorted parameters as `k=v` pairs joined by `'&'`, keys and
values query-escaped. -/
def encodeParts : List (String × String) → String
  | [] => ""
  | [p] => queryEscape p.1 ++ "=" ++ queryEscape p.2
  | p :: q :: rest =>
    queryEscape p.1 ++ "=" ++ queryEscape p.2 ++ "&" ++ encodeParts (q :: rest)

/-- Embedding of `url.Values.Encode`: sorted by key, escaped, `'&'`-separated. -/
def Values.encode (v : Values) : String :=
  encodeParts (sortByKey v)

/-- Embedding of `strconv.Itoa` on the (machine-width) Go `int`, decimal rendering with
a leading minus sign for negatives. -/
def itoa (i : Int) : String := toString i

/-! ## The operations of the module -/

/-- UpdateCustomHostnameSSL modifies SSL configuration for the given custom
hostname in the zone.  The body is `return CustomHostname{},
errors.New("Not implemented")`: no request is issued. -/
def UpdateCustomHostnameSSL (_env : ApiEnv) (_zoneID _customHostnameID : String)
    (_ssl : CustomHostnameSSL) : (CustomHostname × Option GoError) × List Request :=
  (({}, some (GoError.new "Not implemented")), [])

/-- The DELETE request built by `DeleteCustomHostname`. -/
def deleteRequest (zoneID customHostnameID : String) : Request :=
  ⟨"DELETE", "/zones/" ++ zoneID ++ "/custom_hostnames/" ++ customHostnameID, none⟩

/-- DeleteCustomHostname deletes a custom hostname (and any issued SSL
certificates): issues DELETE, unmarshals the response envelope only to
surface decode failures, discards the parsed body. -/
def DeleteCustomHostname (env : ApiEnv) (zoneID customHostnameID : String) :
    Option GoError × List Request :=
  let req := deleteRequest zoneID customHostnameID
  match env.makeRequest req with
  | .error err => (some (GoError.wrap err errMakeRequestError), [req])
  | .ok res =>
    match env.unmarshalCH res with
    | .error err => (some (GoError.wrap err errUnmarshalError), [req])
    | .ok _ => (none, [req])

/-- The POST request built by `CreateCustomHostname`; the transport
serializes the carried body to JSON. -/
def createRequest (zoneID : String) (ch : CustomHostname) : Request :=
  ⟨"POST", "/zones/" ++ zoneID ++ "/custom_hostnames", some ch⟩

/-- CreateCustomHostname creates a new custom hostname and requests that an
SSL certificate be issued for it.  Returns the parsed envelope (a pointer
in Go, hence `Option`). -/
def CreateCustomHostname (env : ApiEnv) (zoneID : String) (ch : CustomHostname) :
    (Option CustomHostnameResponse × Option GoError) × List Request :=
  let req := createRequest zoneID ch
  match env.makeRequest req with
  | .error err => ((none, some (GoError.wrap err errMakeRequestError)), [req])
  | .ok res =>
    match env.unmarshalCH res with
    | .error err => ((none, some (GoError.wrap err errUnmarshalError)), [req])
    | .ok response => ((some response, none), [req])

/-- The `url.Values` built by `FilterCustomHostnames`: `per_page=50`,
`page=<page>`, and `hostname=<filter.Hostname>` only when non-empty. -/
def filterValues (page : Int) (filter : CustomHostname) : Values :=
  let v : Values := []
  let v := Values.set v "per_page" "50"
  let v := Values.set v "page" (itoa page)
  if filter.Hostname ≠ "" then Values.set v "hostname" filter.Hostname else v

/-- The query string built by `FilterCustomHostnames`:
`"?" + v.Encode()`. -/
def filterQuery (page : Int) (filter : CustomHostname) : String :=
  "?" ++ Values.encode (filterValues page filter)

/-- The URI built by `FilterCustomHostnames`. -/
def filterURI (zoneID : String) (page : Int) (filter : CustomHostname) : String :=
  "/zones/" ++ zoneID ++ "/custom_hostnames" ++ filterQuery page filter

/-- The GET request built by `FilterCustomHostnames`. -/
def filterRequest (zoneID : String) (page : Int) (filter : CustomHostname) : Request :=
  ⟨"GET", filterURI zoneID page filter, none⟩

/-- FilterCustomHostnames fetches custom hostnames for the given zone by
applying a filter.  Note that in the source the decode failure of the list
envelope is wrapped with `errMakeRequestError`, not `errUnmarshalError`;
the embedding mirrors that. -/
def FilterCustomHostnames (env : ApiEnv) (zoneID : String) (page : Int)
    (filter : CustomHostname) :
    (List CustomHostname × ResultInfo × Option GoError) × List Request :=
  let req := filterRequest zoneID page filter
  match env.makeRequest req with
  | .error err => (([], {}, some (GoError.wrap err errMakeRequestError)), [req])
  | .ok res =>
    match env.unmarshalCHList res with
    | .error err => (([], {}, some (GoError.wrap err errMakeRequestError)), [req])
    | .ok r => ((r.Result, r.resultInfo, none), [req])

/-- ListCustomHostnames fetches custom hostnames for the given zone by
page: `FilterCustomHostnames` with the zero filter. -/
def ListCustomHostnames (env : ApiEnv) (zoneID : String) (page : Int) :
    (List CustomHostname × ResultInfo × Option GoError) × List Request :=
  FilterCustomHostnames env zoneID page {}

/-- CustomHostname inspects the given custom hostname in the given zone. -/
def GetCustomHostname (env : ApiEnv) (zoneID customHostnameID : String) :
    (CustomHostname × Option GoError) × List Request :=
  let req : Request :=
    ⟨"GET", "/zones/" ++ zoneID ++ "/custom_hostnames/" ++ customHostnameID, none⟩
  match env.makeRequest req with
  | .error err => (({}, some (GoError.wrap err errMakeRequestError)), [req])
  | .ok res =>
    match env.unmarshalCH res with
    | .error err => (({}, some (GoError.wrap err errUnmarshalError)), [req])
    | .ok response => ((response.Result, none), [req])

/-- CustomHostnameIDByName retrieves the ID for the given hostname in the
given zone: filters page 1 by the hostname and scans for an exact match. -/
def CustomHostnameIDByName (env : ApiEnv) (zoneID hostname : String) :
    (String × Option GoError) × List Request :=
  let fr := FilterCustomHostnames env zoneID 1 { Hostname := hostname }
  match fr.1.2.2 with
  | some err =>
    (("", some (GoError.wrap err "failed to fetch CustomHostnameIDByName")), fr.2)
  | none =>
    match fr.1.1.find? (fun ch => ch.Hostname == hostname) with
    | some ch => ((ch.ID, none), fr.2)
    | none => (("", some (GoError.new "the custom hostname could not be found")), fr.2)

/-! ## Concrete collaborator behaviours used as witnesses -/

/-- A fixed concrete byte payload standing for a server response body. -/
def bytes0 : Bytes := [123, 125]

/-- A concrete decode failure, as `json.Unmarshal` would report. -/
def decodeFailError : GoError := GoError.new "invalid character"

/-- A concrete transport failure. -/
def transportError : GoError := GoError.new "connection refused"

/-- An environment whose transport fails on every request. -/
def envTransportFail : ApiEnv where
  makeRequest := fun _ => .error transportError
  unmarshalCH := fun _ => .error decodeFailError
  unmarshalCHList := fun _ => .error decodeFailError

/-- An environment whose transport succeeds but whose response bytes do not
decode into either envelope. -/
def envDecodeFail : ApiEnv where
  makeRequest := fun _ => .ok bytes0
  unmarshalCH := fun _ => .error decodeFailError
  unmarshalCHList := fun _ => .error decodeFailError

/-- An environment whose transport succeeds and whose bytes decode to the
given single-resource envelope. -/
def envOkSingle (r : CustomHostnameResponse) : ApiEnv where
  makeRequest := fun _ => .ok bytes0
  unmarshalCH := fun _ => .ok r
  unmarshalCHList := fun _ => .ok {}

/-- An environment whose transport succeeds and whose bytes decode to a
list envelope carrying the given entries. -/
def envOkList (chs : List CustomHostname) : ApiEnv where
  makeRequest := fun _ => .ok bytes0
  unmarshalCH := fun _ => .ok {}
  unmarshalCHList := fun _ =>
    .ok { Result := chs, response := { Success := true },
          resultInfo := { Page := 1, PerPage := 50, Total := chs.length } }

/-! ## Claims -/

/-- Claim C2: for every environment, zoneID and page, `ListCustomHostnames`
returns exactly the same result triple (and issues the same requests) as
`FilterCustomHostnames` with the zero-value (empty) filter. -/
theorem listCustomHostnames_eq_filter_empty (env : ApiEnv) (zoneID : String)
    (page : Int) :
    ListCustomHostnames env zoneID page = FilterCustomHostnames env zoneID page {} :=
  rfl

/-- Claim C3: for every environment, zoneID, customHostnameID and ssl value,
`UpdateCustomHostnameSSL` returns the zero hostname together with the
`Not implemented` error, issues no request to the transport, and its result
does not depend on the environment at all. -/
theorem updateCustomHostnameSSL_notImplemented (env env' : ApiEnv)
    (zoneID customHostnameID : String) (ssl : CustomHostnameSSL) :
    UpdateCustomHostnameSSL env zoneID customHostnameID ssl =
      (({}, some (GoError.new "Not implemented")), []) ∧
    UpdateCustomHostnameSSL env zoneID customHostnameID ssl =
      UpdateCustomHostnameSSL env' zoneID customHostnameID ssl :=
  ⟨rfl, rfl⟩

/-- Claim C5: evaluation at a failing input.  When the transport succeeds
but the list envelope fails to decode, `FilterCustomHostnames` wraps the
decode failure with `errMakeRequestError` — the transport-error context —
and not with `errUnmarshalError`, the decode-error context the spec (and
every other function in this file) prescribes. -/
theorem filterCustomHostnames_decode_failure_uses_transport_context :
    (FilterCustomHostnames envDecodeFail "z" 1 {}).1.2.2 =
      some (GoError.wrap decodeFailError errMakeRequestError) ∧
    errMakeRequestError ≠ errUnmarshalError :=
  ⟨rfl, by decide⟩

/-- Claim C9: whenever `FilterCustomHostnames` returns a non-nil error, the
hostname sequence it returns is empty and the `ResultInfo` is the zero
value: no partial data accompanies an error. -/
theorem filterCustomHostnames_error_empty_results (env : ApiEnv)
    (zoneID : String) (page : Int) (filter : CustomHostname) (e : GoError)
    (h : (FilterCustomHostnames env zoneID page filter).1.2.2 = some e) :
    (FilterCustomHostnames env zoneID page filter).1.1 = [] ∧
    (FilterCustomHostnames env zoneID page filter).1.2.1 = ({} : ResultInfo) := by
  unfold FilterCustomHostnames at h ⊢
  cases hm : env.makeRequest (filterRequest zoneID page filter) with
  | error err => simp [hm]
  | ok res =>
    cases hu : env.unmarshalCHList res with
    | error err => simp [hm, hu]
    | ok r => simp [hm, hu] at h

/-- Witness for C9 at a concrete failing environment. -/
theorem filterCustomHostnames_error_empty_results_witness :
    (FilterCustomHostnames envTransportFail "z" 1 {}).1.2.2 =
      some (GoError.wrap transportError errMakeRequestError) ∧
    (FilterCustomHostnames envTransportFail "z" 1 {}).1.1 = [] ∧
    (FilterCustomHostnames envTransportFail "z" 1 {}).1.2.1 = ({} : ResultInfo) :=
  ⟨rfl, filterCustomHostnames_error_empty_results envTransportFail "z" 1 {}
    (GoError.wrap transportError errMakeRequestError) rfl⟩

/-- Claim C6: `DeleteCustomHostname` issues the DELETE request and returns
nil whenever the response bytes parse, regardless of the parsed body's
content; a decode failure is surfaced wrapped in the decode context and a
transport failure wrapped in the transport context. -/
theorem deleteCustomHostname_result_spec (env : ApiEnv)
    (zoneID customHostnameID : String) :
    (∀ res parsed, env.makeRequest (deleteRequest zoneID customHostnameID) = .ok res →
      env.unmarshalCH res = .ok parsed →
      DeleteCustomHostname env zoneID customHostnameID =
        (none, [deleteRequest zoneID customHostnameID])) ∧
    (∀ res e, env.makeRequest (deleteRequest zoneID customHostnameID) = .ok res →
      env.unmarshalCH res = .error e →
      DeleteCustomHostname env zoneID customHostnameID =
        (some (GoError.wrap e errUnmarshalError),
          [deleteRequest zoneID customHostnameID])) ∧
    (∀ e, env.makeRequest (deleteRequest zoneID customHostnameID) = .error e →
      DeleteCustomHostname env zoneID customHostnameID =
        (some (GoError.wrap e errMakeRequestError),
          [deleteRequest zoneID customHostnameID])) := by
  refine ⟨?_, ?_, ?_⟩ <;> intros <;> simp_all [DeleteCustomHostname]

/-- Witness for C6: the three branches evaluated at concrete
environments. -/
theorem deleteCustomHostname_result_spec_witness :
    DeleteCustomHostname (envOkSingle {}) "z" "chid" =
      (none, [deleteRequest "z" "chid"]) ∧
    DeleteCustomHostname envDecodeFail "z" "chid" =
      (some (GoError.wrap decodeFailError errUnmarshalError),
        [deleteRequest "z" "chid"]) ∧
    DeleteCustomHostname envTransportFail "z" "chid" =
      (some (GoError.wrap transportError errMakeRequestError),
        [deleteRequest "z" "chid"]) :=
  ⟨(deleteCustomHostname_result_spec (envOkSingle {}) "z" "chid").1 bytes0 {} rfl rfl,
   (deleteCustomHostname_result_spec envDecodeFail "z" "chid").2.1 bytes0
     decodeFailError rfl rfl,
   (deleteCustomHostname_result_spec envTransportFail "z" "chid").2.2
     transportError rfl⟩

/-- Claim C7: `CreateCustomHostname` always issues exactly one POST to the
collection path carrying `ch` as the body handed to the (serializing)
transport; on success it returns the parsed envelope, on transport failure
the transport-wrapped error, and on decode failure the decode-wrapped
error. -/
theorem createCustomHostname_result_spec (env : ApiEnv) (zoneID : String)
    (ch : CustomHostname) :
    (CreateCustomHostname env zoneID ch).2 = [createRequest zoneID ch] ∧
    (∀ res parsed, env.makeRequest (createRequest zoneID ch) = .ok res →
      env.unmarshalCH res = .ok parsed →
      (CreateCustomHostname env zoneID ch).1 = (some parsed, none)) ∧
    (∀ e, env.makeRequest (createRequest zoneID ch) = .error e →
      (CreateCustomHostname env zoneID ch).1 =
        (none, some (GoError.wrap e errMakeRequestError))) ∧
    (∀ res e, env.makeRequest (createRequest zoneID ch) = .ok res →
      env.unmarshalCH res = .error e →
      (CreateCustomHostname env zoneID ch).1 =
        (none, some (GoError.wrap e errUnmarshalError))) := by
  refine ⟨?_, ?_, ?_, ?_⟩
  · unfold CreateCustomHostname
    cases hm : env.makeRequest (createRequest zoneID ch) with
    | error e => simp [hm]
    | ok res => cases hu : env.unmarshalCH res <;> simp [hm, hu]
  all_goals intros; simp_all [CreateCustomHostname]

/-- Witness for C7: the trace and the three outcome branches at concrete
environments; `testParsed` stands for a server reply carrying the assigned
id. -/
theorem createCustomHostname_result_spec_witness :
    (CreateCustomHostname (envOkSingle
        { Result := { ID := "abc123", Hostname := "a.example.com" } }) "z1"
        { Hostname := "a.example.com" }).2 =
      [createRequest "z1" { Hostname := "a.example.com" }] ∧
    (CreateCustomHostname (envOkSingle
        { Result := { ID := "abc123", Hostname := "a.example.com" } }) "z1"
        { Hostname := "a.example.com" }).1 =
      (some { Result := { ID := "abc123", Hostname := "a.example.com" } }, none) ∧
    (CreateCustomHostname envTransportFail "z1" {}).1 =
      (none, some (GoError.wrap transportError errMakeRequestError)) ∧
    (CreateCustomHostname envDecodeFail "z1" {}).1 =
      (none, some (GoError.wrap decodeFailError errUnmarshalError)) :=
  ⟨(createCustomHostname_result_spec (envOkSingle
      { Result := { ID := "abc123", Hostname := "a.example.com" } }) "z1"
      { Hostname := "a.example.com" }).1,
   (createCustomHostname_result_spec (envOkSingle
      { Result := { ID := "abc123", Hostname := "a.example.com" } }) "z1"
      { Hostname := "a.example.com" }).2.1 bytes0
      { Result := { ID := "abc123", Hostname := "a.example.com" } } rfl rfl,
   (createCustomHostname_result_spec envTransportFail "z1" {}).2.2.1
      transportError rfl,
   (createCustomHostname_result_spec envDecodeFail "z1" {}).2.2.2 bytes0
      decodeFailError rfl rfl⟩

/-- The trace of `FilterCustomHostnames` is always exactly its one GET
request. -/
theorem filterCustomHostnames_trace (env : ApiEnv) (zoneID : String)
    (page : Int) (filter : CustomHostname) :
    (FilterCustomHostnames env zoneID page filter).2 =
      [filterRequest zoneID page filter] := by
  unfold FilterCustomHostnames
  cases hm : env.makeRequest (filterRequest zoneID page filter) with
  | error err => simp [hm]
  | ok res => cases hu : env.unmarshalCHList res <;> simp [hm, *]

/-- The function `List.find?` returns the entry at the first index satisfying the
predicate. -/
theorem find?_eq_get_of_first {α : Type} (l : List α) (p : α → Bool) :
    ∀ (i : Nat) (hi : i < l.length), p (l.get ⟨i, hi⟩) = true →
      (∀ j (hj : j < i), p (l.get ⟨j, Nat.lt_trans hj hi⟩) = false) →
      l.find? p = some (l.get ⟨i, hi⟩) := by
  induction l with
  | nil => intro i hi; simp at hi
  | cons a t ih =>
    intro i hi hmatch hbefore
    cases i with
    | zero =>
      simp only [List.get] at hmatch
      simp [List.find?_cons, hmatch]
    | succ n =>
      have ha : p a = false := hbefore 0 (Nat.succ_pos n)
      have hn : n < t.length := Nat.succ_lt_succ_iff.mp hi
      rw [List.find?_cons, ha]
      simp only [List.get_cons_succ]
      exact ih n hn hmatch fun j hj => by
        have := hbefore (j + 1) (Nat.succ_lt_succ hj)
        simpa using this

/-- Claim C1: `CustomHostnameIDByName` issues exactly the page-1
hostname-filtered GET of `FilterCustomHostnames`; when that call succeeds
it either returns the id of an entry of the returned sequence whose
`Hostname` equals the query exactly, or, when no entry of the returned
(first) page matches exactly, the empty id together with the not-found
error. -/
theorem customHostnameIDByName_spec (env : ApiEnv) (zoneID hostname : String) :
    (CustomHostnameIDByName env zoneID hostname).2 =
      (FilterCustomHostnames env zoneID 1 { Hostname := hostname }).2 ∧
    (CustomHostnameIDByName env zoneID hostname).2 =
      [filterRequest zoneID 1 { Hostname := hostname }] ∧
    ((FilterCustomHostnames env zoneID 1 { Hostname := hostname }).1.2.2 = none →
      ((∃ ch ∈ (FilterCustomHostnames env zoneID 1 { Hostname := hostname }).1.1,
          ch.Hostname = hostname ∧
          (CustomHostnameIDByName env zoneID hostname).1 = (ch.ID, none)) ∨
        ((∀ ch ∈ (FilterCustomHostnames env zoneID 1 { Hostname := hostname }).1.1,
            ch.Hostname ≠ hostname) ∧
          (CustomHostnameIDByName env zoneID hostname).1 =
            ("", some (GoError.new "the custom hostname could not be found"))))) := by
  have htr : (CustomHostnameIDByName env zoneID hostname).2 =
      (FilterCustomHostnames env zoneID 1 { Hostname := hostname }).2 := by
    cases herr : (FilterCustomHostnames env zoneID 1 { Hostname := hostname }).1.2.2 with
    | some e => simp [CustomHostnameIDByName, herr]
    | none =>
      cases hf : (FilterCustomHostnames env zoneID 1
          { Hostname := hostname }).1.1.find? (fun ch => ch.Hostname == hostname) with
      | some ch => simp [CustomHostnameIDByName, herr, hf]
      | none => simp [CustomHostnameIDByName, herr, hf]
  refine ⟨htr, htr.trans (filterCustomHostnames_trace env zoneID 1 _), ?_⟩
  intro herr
  cases hf : (FilterCustomHostnames env zoneID 1
      { Hostname := hostname }).1.1.find? (fun ch => ch.Hostname == hostname) with
  | some ch =>
    left
    exact ⟨ch, List.mem_of_find?_eq_some hf, by simpa using List.find?_some hf,
      by simp [CustomHostnameIDByName, herr, hf]⟩
  | none =>
    right
    refine ⟨fun ch hch heq => ?_, by simp [CustomHostnameIDByName, herr, hf]⟩
    exact List.find?_eq_none.mp hf ch hch (by simp [heq])

/-- An entry of the test page that does not match the queried hostname. -/
def chNoMatch : CustomHostname := { ID := "id0", Hostname := "b.example.com" }

/-- The first matching entry of the test page. -/
def chMatch1 : CustomHostname := { ID := "id1", Hostname := "a.example.com" }

/-- A second matching entry of the test page, with a different id. -/
def chMatch2 : CustomHostname := { ID := "id2", Hostname := "a.example.com" }

/-- Witness for C1: at a concrete one-entry page the matching id is
returned, and at a concrete page with no exact match the not-found error
comes back with the empty id. -/
theorem customHostnameIDByName_spec_witness :
    (CustomHostnameIDByName (envOkList [chMatch1]) "z" "a.example.com").1 =
      ("id1", none) ∧
    (CustomHostnameIDByName (envOkList [chNoMatch]) "z" "a.example.com").1 =
      ("", some (GoError.new "the custom hostname could not be found")) := by
  constructor
  · have h1 : (FilterCustomHostnames (envOkList [chMatch1]) "z" 1
        { Hostname := "a.example.com" }).1.1 = [chMatch1] := rfl
    have h := (customHostnameIDByName_spec (envOkList [chMatch1]) "z"
      "a.example.com").2.2 rfl
    rw [h1] at h
    rcases h with ⟨ch, hmem, hh, hres⟩ | ⟨hall, hres⟩
    · have hch : ch = chMatch1 := by simpa using hmem
      rw [hch] at hres
      exact hres
    · exact absurd rfl (hall chMatch1 (by simp))
  · have h1 : (FilterCustomHostnames (envOkList [chNoMatch]) "z" 1
        { Hostname := "a.example.com" }).1.1 = [chNoMatch] := rfl
    have h := (customHostnameIDByName_spec (envOkList [chNoMatch]) "z"
      "a.example.com").2.2 rfl
    rw [h1] at h
    rcases h with ⟨ch, hmem, hh, hres⟩ | ⟨hall, hres⟩
    · have hch : ch = chNoMatch := by simpa using hmem
      rw [hch] at hh
      exact absurd hh (by decide)
    · exact hres

/-- Claim C10: when the page returned to `CustomHostnameIDByName` has an
exact match at position `i` and none before it, the id returned is that of
the entry at `i` — the first exact match in sequence order. -/
theorem customHostnameIDByName_first_match (env : ApiEnv)
    (zoneID hostname : String)
    (herr : (FilterCustomHostnames env zoneID 1 { Hostname := hostname }).1.2.2 = none)
    (i : Nat)
    (hi : i < (FilterCustomHostnames env zoneID 1 { Hostname := hostname }).1.1.length)
    (hmatch : ((FilterCustomHostnames env zoneID 1
      { Hostname := hostname }).1.1.get ⟨i, hi⟩).Hostname = hostname)
    (hbefore : ∀ j (hj : j < i),
      ((FilterCustomHostnames env zoneID 1 { Hostname := hostname }).1.1.get
        ⟨j, Nat.lt_trans hj hi⟩).Hostname ≠ hostname) :
    (CustomHostnameIDByName env zoneID hostname).1 =
      (((FilterCustomHostnames env zoneID 1 { Hostname := hostname }).1.1.get
        ⟨i, hi⟩).ID, none) := by
  have hf := find?_eq_get_of_first
    (FilterCustomHostnames env zoneID 1 { Hostname := hostname }).1.1
    (fun ch => ch.Hostname == hostname) i hi (by simpa using hmatch)
    (fun j hj => by simpa using hbefore j hj)
  simp [CustomHostnameIDByName, herr, hf]

/-- Witness for C10: a concrete page holding a non-match followed by two
exact matches with different ids; the first matching id is returned. -/
theorem customHostnameIDByName_first_match_witness :
    (CustomHostnameIDByName (envOkList [chNoMatch, chMatch1, chMatch2]) "z"
      "a.example.com").1 = ("id1", none) := by
  have h := customHostnameIDByName_first_match
    (envOkList [chNoMatch, chMatch1, chMatch2]) "z" "a.example.com" rfl 1
    (by decide) rfl (fun j hj => by
      have hj0 : j = 0 := by omega
      subst hj0
      show chNoMatch.Hostname ≠ "a.example.com"
      decide)
  exact h

/-! ## Facts about query escaping of the values this file sends -/

/-- Unreserved characters pass through `escapeChar` unchanged. -/
theorem escapeChar_of_unreserved {c : Char} (h : isUnreservedChar c = true) :
    escapeChar c = String.singleton c := by
  unfold escapeChar
  rw [if_pos h]

/-- Folding append over singletons rebuilds the underlying character
list. -/
theorem foldl_append_singleton (acc l : List Char) :
    List.foldl (fun r s => r ++ s) (String.mk acc) (l.map String.singleton) =
      String.mk (acc ++ l) := by
  induction l generalizing acc with
  | nil => simp
  | cons c t ih =>
    show List.foldl (fun r s => r ++ s) (String.mk acc ++ String.singleton c)
      (t.map String.singleton) = String.mk (acc ++ c :: t)
    have hmk : String.mk acc ++ String.singleton c = String.mk (acc ++ [c]) := rfl
    rw [hmk, ih (acc ++ [c])]
    simp

/-- A string all of whose characters are unreserved is left unchanged by
`queryEscape`. -/
theorem queryEscape_of_all_unreserved (s : String)
    (h : ∀ c ∈ s.data, isUnreservedChar c = true) : queryEscape s = s := by
  unfold queryEscape
  rw [List.map_congr_left fun c hc => escapeChar_of_unreserved (h c hc)]
  have hj : String.join (s.data.map String.singleton) = String.mk s.data :=
    foldl_append_singleton [] s.data
  rw [hj]

/-- Every character `Nat.toDigitsCore` at base 10 puts in front of an
unreserved accumulator is an unreserved decimal digit. -/
theorem toDigitsCore_unreserved :
    ∀ (fuel n : Nat) (acc : List Char),
      (∀ c ∈ acc, isUnreservedChar c = true) →
      ∀ c ∈ Nat.toDigitsCore 10 fuel n acc, isUnreservedChar c = true := by
  intro fuel
  induction fuel with
  | zero =>
    intro n acc hacc c hc
    exact hacc c hc
  | succ f ih =>
    intro n acc hacc c hc
    have hd : isUnreservedChar (Nat.digitChar (n % 10)) = true := by
      have h10 : n % 10 < 10 := Nat.mod_lt _ (by norm_num)
      set m := n % 10 with hm
      interval_cases m <;> decide
    have hacc' : ∀ c ∈ Nat.digitChar (n % 10) :: acc, isUnreservedChar c = true := by
      intro c hc
      rcases List.mem_cons.mp hc with h | h
      · rw [h]; exact hd
      · exact hacc c h
    rw [Nat.toDigitsCore] at hc
    split at hc
    · exact hacc' c hc
    · exact ih (n / 10) (Nat.digitChar (n % 10) :: acc) hacc' c hc

/-- Every character of the decimal rendering of a natural number is
unreserved. -/
theorem natRepr_unreserved (n : Nat) :
    ∀ c ∈ (Nat.repr n).data, isUnreservedChar c = true := by
  intro c hc
  exact toDigitsCore_unreserved (n + 1) n [] (by simp) c hc

/-- Every character of `itoa` — decimal digits and the minus sign — is
unreserved. -/
theorem itoa_unreserved (i : Int) :
    ∀ c ∈ (itoa i).data, isUnreservedChar c = true := by
  cases i with
  | ofNat m => exact natRepr_unreserved m
  | negSucc m =>
    intro c hc
    have hc' : c ∈ '-' :: (Nat.repr (m + 1)).data := hc
    rcases List.mem_cons.mp hc' with h | h
    · rw [h]; decide
    · exact natRepr_unreserved (m + 1) c h

/-- The output of `strconv.Itoa` passes through query escaping unchanged. -/
theorem queryEscape_itoa (i : Int) : queryEscape (itoa i) = itoa i :=
  queryEscape_of_all_unreserved _ (itoa_unreserved i)

/-- The values associated with a key in a `url.Values`. -/
def Values.get (v : Values) (key : String) : List String :=
  (List.filter (fun p => p.1 == key) v).map (fun p => p.2)

/-- Claim C4: the query built by `FilterCustomHostnames` always carries
exactly one `per_page` parameter with value `50` and exactly one `page`
parameter with the decimal rendering of `page`; it carries no `hostname`
parameter when the filter's `Hostname` is empty and exactly one, equal to
the filter's `Hostname`, when it is non-empty; and the query string is the
rendering of exactly these values. -/
theorem filterCustomHostnames_query_params (page : Int) (filter : CustomHostname) :
    Values.get (filterValues page filter) "per_page" = ["50"] ∧
    Values.get (filterValues page filter) "page" = [itoa page] ∧
    (filter.Hostname = "" → Values.get (filterValues page filter) "hostname" = []) ∧
    (filter.Hostname ≠ "" →
      Values.get (filterValues page filter) "hostname" = [filter.Hostname]) ∧
    filterQuery page filter = "?" ++ Values.encode (filterValues page filter) := by
  by_cases h : filter.Hostname = "" <;>
    simp [h, filterValues, filterQuery, Values.set, Values.get]

/-- Witness for C4: the `hostname` parameter is absent for the empty
filter and present exactly once for a non-empty one. -/
theorem filterCustomHostnames_query_params_witness :
    Values.get (filterValues 1 {}) "hostname" = [] ∧
    Values.get (filterValues 1 { Hostname := "a" }) "hostname" = ["a"] :=
  ⟨(filterCustomHostnames_query_params 1 {}).2.2.1 rfl,
   (filterCustomHostnames_query_params 1 { Hostname := "a" }).2.2.2.1 (by decide)⟩

/-- Counterexample to claim C8: at zoneID `z`, page 1 and filter hostname
`a`, the URI built by `FilterCustomHostnames` is not
`/zones/z/custom_hostnames?per_page=50&page=1&hostname=a` — the encoder
renders the parameters in sorted key order, not in insertion order. -/
theorem filterURI_not_insertion_order :
    filterURI "z" 1 { Hostname := "a" } ≠
      "/zones/z/custom_hostnames?per_page=50&page=1&hostname=a" := by
  decide

/-- Claim C8 as amended: the URI built by `FilterCustomHostnames` is the
resource path followed by the parameters in sorted key order —
`hostname` (query-escaped, present only for a non-empty filter), then
`page`, then `per_page=50`. -/
theorem filterURI_sorted_params (zoneID : String) (page : Int)
    (filter : CustomHostname) :
    filterURI zoneID page filter =
      if filter.Hostname = "" then
        "/zones/" ++ zoneID ++ "/custom_hostnames" ++
          ("?" ++ ("page" ++ "=" ++ itoa page ++ "&" ++ ("per_page" ++ "=" ++ "50")))
      else
        "/zones/" ++ zoneID ++ "/custom_hostnames" ++
          ("?" ++ ("hostname" ++ "=" ++ queryEscape filter.Hostname ++ "&" ++
            ("page" ++ "=" ++ itoa page ++ "&" ++ ("per_page" ++ "=" ++ "50")))) := by
  have hbase : filterURI zoneID page filter =
      "/zones/" ++ zoneID ++ "/custom_hostnames" ++
        ("?" ++ Values.encode (filterValues page filter)) := rfl
  by_cases h : filter.Hostname = ""
  · rw [if_pos h, hbase]
    have hv : filterValues page filter =
        Values.set (Values.set ([] : Values) "per_page" "50") "page" (itoa page) := by
      unfold filterValues
      rw [if_neg (by simp [h])]
    rw [hv]
    have he : Values.encode
        (Values.set (Values.set ([] : Values) "per_page" "50") "page" (itoa page)) =
        "page" ++ "=" ++ queryEscape (itoa page) ++ "&" ++
          ("per_page" ++ "=" ++ "50") := rfl
    rw [he, queryEscape_itoa]
  · rw [if_neg h, hbase]
    have hv : filterValues page filter =
        Values.set (Values.set (Values.set ([] : Values) "per_page" "50") "page"
          (itoa page)) "hostname" filter.Hostname := by
      unfold filterValues
      rw [if_pos h]
    rw [hv]
    have he : Values.encode
        (Values.set (Values.set (Values.set ([] : Values) "per_page" "50") "page"
          (itoa page)) "hostname" filter.Hostname) =
        "hostname" ++ "=" ++ queryEscape filter.Hostname ++ "&" ++
          ("page" ++ "=" ++ queryEscape (itoa page) ++ "&" ++
            ("per_page" ++ "=" ++ "50")) := rfl
    rw [he, queryEscape_itoa]

end CloudflareCH
